import Mathlib

/-!
Verification of the duplicate-counting prevention tracker of the
Datamorphosis ML project.  The tracker deduplicates per-person counting in
a gender-classification people counter: a session-long set
`counted_person_ids` records which person identities have already been
credited, a transient map `tracked_people_gender` keeps display metadata
for currently visible identities, and per-category counters `male_count`,
`female_count` plus the derived total `count_p` tally credited people.

The repository ships the tracker as documentation quoting
`people_counter_api.py` (the counting branch, the never-cleared set and
the cleanup loop appear verbatim as Python snippets); the Python file
itself is not part of the repository, so the operations around those
snippets are modelled from the specification where noted.
-/

namespace PeopleCounter

/-- A classification result produced by the external gender classifier: a
category label (the code uses the strings MALE and FEMALE) and a
confidence score, modelled as a rational number. -/
structure ClassificationResult where
  category : String
  confidence : ℚ
  deriving DecidableEq, Repr

/-- The `gender_idx` convention of the counting snippet: index 1 stands
for MALE, index 0 for FEMALE; any other label is unrecognized. -/
def genderIdx (category : String) : Option ℕ :=
  if category = "MALE" then some 1
  else if category = "FEMALE" then some 0
  else none

/-- Modelled from the spec: `people_counter_api.py` is not in the
repository, and the spec constrains a usable classification result to a
recognized category and a confidence in the interval from 0 to 1. -/
def validResult (r : ClassificationResult) : Bool :=
  (genderIdx r.category).isSome && decide (0 ≤ r.confidence) && decide (r.confidence ≤ 1)

/-- One entry of `tracked_people_gender`, as stored by the counting
snippet: gender label, confidence, counted flag and first-seen frame. -/
structure ActiveRecord where
  gender : String
  confidence : ℚ
  counted : Bool
  first_seen_frame : ℕ
  deriving DecidableEq, Repr

/-- Association-list lookup for the `tracked_people_gender` dictionary. -/
def lookupRec (i : String) : List (String × ActiveRecord) → Option ActiveRecord
  | [] => none
  | p :: rest => if p.1 = i then some p.2 else lookupRec i rest

/-- Dictionary assignment `tracked_people_gender[id] = record`: the new
entry replaces any previous entry for the same key. -/
def setRecord (i : String) (r : ActiveRecord) (m : List (String × ActiveRecord)) :
    List (String × ActiveRecord) :=
  (i, r) :: m.filter (fun p => decide (p.1 ≠ i))

/-- Key set of the `tracked_people_gender` dictionary. -/
def keys (m : List (String × ActiveRecord)) : List String := m.map Prod.fst

/-- The tracker state: the never-cleared `counted_person_ids` set, the
transient `tracked_people_gender` dictionary, the per-category counters
and the total `count_p`. -/
structure TrackerState where
  counted_person_ids : List String
  tracked_people_gender : List (String × ActiveRecord)
  male_count : ℕ
  female_count : ℕ
  count_p : ℕ
  deriving DecidableEq, Repr

/-- The counting branch, embedded from the duplicate-prevention snippet
quoted in the tracker documentation: bump the matching per-category
counter, add the identity to `counted_person_ids`, bump `count_p`, and
store the gender record with `counted := true` and the current frame. -/
def countNew (st : TrackerState) (i : String) (r : ClassificationResult)
    (frame : ℕ) : TrackerState where
  counted_person_ids := i :: st.counted_person_ids
  tracked_people_gender :=
    setRecord i ⟨r.category, r.confidence, true, frame⟩ st.tracked_people_gender
  male_count := if genderIdx r.category = some 1 then st.male_count + 1 else st.male_count
  female_count := if genderIdx r.category = some 0 then st.female_count + 1 else st.female_count
  count_p := st.count_p + 1

/-- Modelled from the spec: the already-counted branch of `observe` is
shown only as Update gender info in the documentation's flow diagram
(`people_counter_api.py` is not in the repository).  It refreshes the
record's label and confidence, keeps `counted := true`, and preserves the
earliest recorded first-seen frame when a record already exists. -/
def firstSeen (st : TrackerState) (i : String) (frame : ℕ) : ℕ :=
  match lookupRec i st.tracked_people_gender with
  | some old => old.first_seen_frame
  | none => frame

/-- Modelled from the spec: the record written by the already-counted
branch keeps the earliest first-seen frame and the true counted flag
while refreshing label and confidence. -/
def updateSeen (st : TrackerState) (i : String) (r : ClassificationResult)
    (frame : ℕ) : TrackerState :=
  { st with tracked_people_gender :=
      (setRecord i ⟨r.category, r.confidence, true, firstSeen st i frame⟩ st.tracked_people_gender) }

/-- Modelled from the spec: the `observe` operation of the Dedup Tracker
(`people_counter_api.py` is not in the repository).  An absent
classification result changes nothing; a malformed one is rejected with
an invalid-input error and no state change; otherwise the membership test
on `counted_person_ids` decides between the counting branch (embedded
from the documented snippet) and the update branch. -/
def observe (st : TrackerState) (identity : String)
    (res : Option ClassificationResult) (frameNumber : ℕ) :
    Except String TrackerState :=
  match res with
  | none => Except.ok st
  | some r =>
      if validResult r = true then
        if identity ∈ st.counted_person_ids then
          Except.ok (updateSeen st identity r frameNumber)
        else
          Except.ok (countNew st identity r frameNumber)
      else Except.error "invalid classification result"

/-- The cleanup loop, embedded from the tracker documentation: every
`tracked_people_gender` entry whose key is not among the identities of
the current frame is deleted; `counted_person_ids` is not touched. -/
def reconcileActive (st : TrackerState) (current : List String) : TrackerState :=
  { st with tracked_people_gender :=
      st.tracked_people_gender.filter (fun p => decide (p.1 ∈ current)) }

/-- Modelled from the spec: the `isCounted` query, a pure membership test
against `counted_person_ids` (mirroring the documented
`if id_obj in counted_person_ids` checks). -/
def isCounted (st : TrackerState) (identity : String) : Bool :=
  decide (identity ∈ st.counted_person_ids)

/-- The two presentation states of an identity. -/
inductive TrackStatus where
  | uncounted
  | counted
  deriving DecidableEq, Repr

/-- Modelled from the spec: the `status` query, derived directly from
`counted_person_ids` membership, not from the transient records. -/
def status (st : TrackerState) (identity : String) : TrackStatus :=
  if isCounted st identity then TrackStatus.counted else TrackStatus.uncounted

/-- One event of a tracking session: an `observe` call or a
`reconcileActive` call. -/
inductive Step where
  | observe (identity : String) (res : Option ClassificationResult) (frameNumber : ℕ)
  | reconcile (current : List String)
  deriving DecidableEq, Repr

/-- Apply one session event.  A rejected `observe` leaves the state
unchanged (the surrounding frame loop logs and continues). -/
def applyStep (st : TrackerState) : Step → TrackerState
  | Step.observe i res f =>
      match observe st i res f with
      | Except.ok st1 => st1
      | Except.error _ => st
  | Step.reconcile cur => reconcileActive st cur

/-- The tracker state at session start: everything empty, all counters 0. -/
def initState : TrackerState := ⟨[], [], 0, 0, 0⟩

/-- The state reached from session start by a list of events. -/
def run (l : List Step) : TrackerState := l.foldl applyStep initState

/-- `creditsTo st i s` holds when event `s`, taken in state `st`, is an
`observe` of identity `i` that changes a per-category counter: a counter
increment on account of `i`. -/
def creditsTo (st : TrackerState) (i : String) : Step → Bool
  | Step.observe j res f =>
      decide (j = i) &&
        decide ((applyStep st (Step.observe j res f)).male_count
            + (applyStep st (Step.observe j res f)).female_count
          ≠ st.male_count + st.female_count)
  | Step.reconcile _ => false

/-- Number of counter increments on account of identity `i` along a list
of events starting in state `st`. -/
def creditEvents (i : String) : TrackerState → List Step → ℕ
  | _, [] => 0
  | st, s :: l =>
      (if creditsTo st i s = true then 1 else 0) + creditEvents i (applyStep st s) l

/-! Basic unfolding lemmas for the step function. -/

theorem applyStep_observe_none (st : TrackerState) (i : String) (f : ℕ) :
    applyStep st (Step.observe i none f) = st := rfl

theorem applyStep_reconcile (st : TrackerState) (cur : List String) :
    applyStep st (Step.reconcile cur) = reconcileActive st cur := rfl

theorem applyStep_observe_some (st : TrackerState) (i : String)
    (r : ClassificationResult) (f : ℕ) :
    applyStep st (Step.observe i (some r) f) =
      if validResult r = true then
        (if i ∈ st.counted_person_ids then updateSeen st i r f else countNew st i r f)
      else st := by
  by_cases hv : validResult r = true
  · by_cases hm : i ∈ st.counted_person_ids
    · simp [applyStep, observe, hv, hm]
    · simp [applyStep, observe, hv, hm]
  · simp [applyStep, observe, hv]

theorem countNew_counted (st : TrackerState) (i : String) (r : ClassificationResult)
    (f : ℕ) : (countNew st i r f).counted_person_ids = i :: st.counted_person_ids := rfl

theorem countNew_count_p (st : TrackerState) (i : String) (r : ClassificationResult)
    (f : ℕ) : (countNew st i r f).count_p = st.count_p + 1 := rfl

theorem countNew_male (st : TrackerState) (i : String) (r : ClassificationResult)
    (f : ℕ) : (countNew st i r f).male_count
      = if genderIdx r.category = some 1 then st.male_count + 1 else st.male_count := rfl

theorem countNew_female (st : TrackerState) (i : String) (r : ClassificationResult)
    (f : ℕ) : (countNew st i r f).female_count
      = if genderIdx r.category = some 0 then st.female_count + 1 else st.female_count := rfl

theorem countNew_tracked (st : TrackerState) (i : String) (r : ClassificationResult)
    (f : ℕ) : (countNew st i r f).tracked_people_gender
      = setRecord i ⟨r.category, r.confidence, true, f⟩ st.tracked_people_gender := rfl

theorem updateSeen_tracked (st : TrackerState) (i : String) (r : ClassificationResult)
    (f : ℕ) : (updateSeen st i r f).tracked_people_gender
      = setRecord i ⟨r.category, r.confidence, true, firstSeen st i f⟩
          st.tracked_people_gender := rfl

theorem lookupRec_setRecord_self (i : String) (rec : ActiveRecord)
    (m : List (String × ActiveRecord)) :
    lookupRec i (setRecord i rec m) = some rec := by
  simp [setRecord, lookupRec]

/-- A recognized category indexes as MALE or FEMALE. -/
theorem genderIdx_of_valid (r : ClassificationResult) (h : validResult r = true) :
    genderIdx r.category = some 1 ∨ genderIdx r.category = some 0 := by
  have h1 : (genderIdx r.category).isSome = true := by
    simp only [validResult, Bool.and_eq_true] at h
    exact h.1.1
  unfold genderIdx at h1 ⊢
  by_cases hM : r.category = "MALE"
  · left; rw [if_pos hM]
  · by_cases hF : r.category = "FEMALE"
    · right; rw [if_neg hM, if_pos hF]
    · rw [if_neg hM, if_neg hF] at h1; simp at h1

/-- The counting branch bumps the per-category counters by exactly 1 in
total when the classification result is valid. -/
theorem countNew_sum (st : TrackerState) (i : String) (r : ClassificationResult)
    (f : ℕ) (h : validResult r = true) :
    (countNew st i r f).male_count + (countNew st i r f).female_count
      = st.male_count + st.female_count + 1 := by
  rcases genderIdx_of_valid r h with hg | hg <;>
    simp [countNew_male, countNew_female, hg] <;> omega

/-- Every step either leaves the counted set, both per-category counters
and the total unchanged, or it is a valid first `observe` of some
identity and takes the counting branch. -/
theorem applyStep_cases (st : TrackerState) (s : Step) :
    ((applyStep st s).counted_person_ids = st.counted_person_ids
      ∧ (applyStep st s).male_count = st.male_count
      ∧ (applyStep st s).female_count = st.female_count
      ∧ (applyStep st s).count_p = st.count_p)
    ∨ ∃ i r f, s = Step.observe i (some r) f ∧ validResult r = true
        ∧ i ∉ st.counted_person_ids ∧ applyStep st s = countNew st i r f := by
  cases s with
  | observe j res f =>
      cases res with
      | none => exact Or.inl ⟨rfl, rfl, rfl, rfl⟩
      | some r =>
          by_cases hv : validResult r = true
          · by_cases hm : j ∈ st.counted_person_ids
            · left
              rw [applyStep_observe_some, if_pos hv, if_pos hm]
              exact ⟨rfl, rfl, rfl, rfl⟩
            · right
              exact ⟨j, r, f, rfl, hv, hm,
                by rw [applyStep_observe_some, if_pos hv, if_neg hm]⟩
          · left
            rw [applyStep_observe_some, if_neg hv]
            exact ⟨rfl, rfl, rfl, rfl⟩
  | reconcile cur => exact Or.inl ⟨rfl, rfl, rfl, rfl⟩

/-- Membership in the counted set survives every step. -/
theorem mem_counted_applyStep (st : TrackerState) (s : Step) (i : String)
    (h : i ∈ st.counted_person_ids) : i ∈ (applyStep st s).counted_person_ids := by
  rcases applyStep_cases st s with ⟨hcnt, _, _, _⟩ | ⟨j, r, f, _, _, _, hst⟩
  · rw [hcnt]; exact h
  · rw [hst, countNew_counted]; exact List.mem_cons_of_mem j h

/-- Membership in the counted set survives every tail of a session. -/
theorem mem_counted_foldl (i : String) :
    ∀ (l : List Step) (st : TrackerState),
      i ∈ st.counted_person_ids → i ∈ (List.foldl applyStep st l).counted_person_ids
  | [], _, h => h
  | s :: l, st, h => mem_counted_foldl i l (applyStep st s) (mem_counted_applyStep st s i h)

theorem counters_mono_applyStep (st : TrackerState) (s : Step) :
    st.male_count ≤ (applyStep st s).male_count
    ∧ st.female_count ≤ (applyStep st s).female_count
    ∧ st.count_p ≤ (applyStep st s).count_p := by
  rcases applyStep_cases st s with ⟨_, hm, hf, hp⟩ | ⟨j, r, f, _, _, _, hst⟩
  · rw [hm, hf, hp]; exact ⟨Nat.le_refl _, Nat.le_refl _, Nat.le_refl _⟩
  · rw [hst, countNew_male, countNew_female, countNew_count_p]
    refine ⟨?_, ?_, Nat.le_succ _⟩ <;> split <;> omega

theorem counters_mono_foldl :
    ∀ (l : List Step) (st : TrackerState),
      st.male_count ≤ (List.foldl applyStep st l).male_count
      ∧ st.female_count ≤ (List.foldl applyStep st l).female_count
      ∧ st.count_p ≤ (List.foldl applyStep st l).count_p
  | [], _ => ⟨Nat.le_refl _, Nat.le_refl _, Nat.le_refl _⟩
  | s :: l, st => by
      obtain ⟨h1, h2, h3⟩ := counters_mono_applyStep st s
      obtain ⟨g1, g2, g3⟩ := counters_mono_foldl l (applyStep st s)
      exact ⟨Nat.le_trans h1 g1, Nat.le_trans h2 g2, Nat.le_trans h3 g3⟩

/-- A predicate preserved by every step holds at the end of any session
tail on which it held at the start. -/
theorem foldl_preserve (P : TrackerState → Prop)
    (h : ∀ st s, P st → P (applyStep st s)) :
    ∀ (l : List Step) (st : TrackerState), P st → P (List.foldl applyStep st l)
  | [], _, hp => hp
  | s :: l, st, hp => foldl_preserve P h l (applyStep st s) (h st s hp)

theorem total_inv_applyStep (st : TrackerState) (s : Step)
    (h : st.count_p = st.male_count + st.female_count) :
    (applyStep st s).count_p = (applyStep st s).male_count + (applyStep st s).female_count := by
  rcases applyStep_cases st s with ⟨_, hm, hf, hp⟩ | ⟨j, r, f, _, hv, _, hst⟩
  · rw [hm, hf, hp]; exact h
  · rw [hst, countNew_count_p, countNew_sum st j r f hv, h]

theorem card_inv_applyStep (st : TrackerState) (s : Step)
    (h : st.counted_person_ids.Nodup ∧ st.count_p = st.counted_person_ids.length) :
    (applyStep st s).counted_person_ids.Nodup
    ∧ (applyStep st s).count_p = (applyStep st s).counted_person_ids.length := by
  rcases applyStep_cases st s with ⟨hcnt, _, _, hp⟩ | ⟨j, r, f, _, _, hm, hst⟩
  · rw [hcnt, hp]; exact h
  · rw [hst, countNew_counted, countNew_count_p]
    exact ⟨List.nodup_cons.mpr ⟨hm, h.1⟩, by rw [List.length_cons, h.2]⟩

theorem records_inv_applyStep (st : TrackerState) (s : Step)
    (h : ∀ p ∈ st.tracked_people_gender,
      p.1 ∈ st.counted_person_ids ∧ p.2.counted = true) :
    ∀ p ∈ (applyStep st s).tracked_people_gender,
      p.1 ∈ (applyStep st s).counted_person_ids ∧ p.2.counted = true := by
  cases s with
  | reconcile cur =>
      intro p hp
      rw [applyStep_reconcile] at hp ⊢
      simp only [reconcileActive, List.mem_filter, decide_eq_true_eq] at hp
      exact h p hp.1
  | observe j res f =>
      cases res with
      | none => exact h
      | some r =>
          by_cases hv : validResult r = true
          · by_cases hm : j ∈ st.counted_person_ids
            · intro p hp
              rw [applyStep_observe_some, if_pos hv, if_pos hm] at hp ⊢
              rw [updateSeen_tracked] at hp
              simp only [setRecord, List.mem_cons, List.mem_filter,
                decide_eq_true_eq] at hp
              rcases hp with rfl | ⟨hp, _⟩
              · exact ⟨hm, rfl⟩
              · exact h p hp
            · intro p hp
              rw [applyStep_observe_some, if_pos hv, if_neg hm] at hp ⊢
              rw [countNew_tracked] at hp
              rw [countNew_counted]
              simp only [setRecord, List.mem_cons, List.mem_filter,
                decide_eq_true_eq] at hp
              rcases hp with rfl | ⟨hp, _⟩
              · exact ⟨List.mem_cons_self _ _, rfl⟩
              · exact ⟨List.mem_cons_of_mem j (h p hp).1, (h p hp).2⟩
          · intro p hp
            rw [applyStep_observe_some, if_neg hv] at hp ⊢
            exact h p hp

theorem creditsTo_observe (st : TrackerState) (i j : String)
    (res : Option ClassificationResult) (f : ℕ) :
    creditsTo st i (Step.observe j res f) =
      (decide (j = i) &&
        decide ((applyStep st (Step.observe j res f)).male_count
            + (applyStep st (Step.observe j res f)).female_count
          ≠ st.male_count + st.female_count)) := rfl

/-- An already-counted identity is never credited again by any step. -/
theorem creditsTo_eq_false_of_counted (st : TrackerState) (i : String) (s : Step)
    (h : i ∈ st.counted_person_ids) : creditsTo st i s = false := by
  cases s with
  | reconcile cur => rfl
  | observe j res f =>
      rw [creditsTo_observe]
      by_cases hj : j = i
      · subst hj
        rcases applyStep_cases st (Step.observe j res f) with ⟨_, hm, hf, _⟩ |
          ⟨i2, r2, f2, hs, _, hm2, _⟩
        · rw [hm, hf]; simp
        · injection hs with e1 e2 e3
          subst e1
          exact absurd h hm2
      · simp [hj]

/-- A step crediting identity `i` puts `i` into the counted set. -/
theorem mem_counted_of_creditsTo (st : TrackerState) (i : String) (s : Step)
    (h : creditsTo st i s = true) : i ∈ (applyStep st s).counted_person_ids := by
  cases s with
  | reconcile cur => simp [creditsTo] at h
  | observe j res f =>
      rw [creditsTo_observe, Bool.and_eq_true, decide_eq_true_eq,
        decide_eq_true_eq] at h
      obtain ⟨hj, hsum⟩ := h
      subst hj
      rcases applyStep_cases st (Step.observe j res f) with ⟨_, hm, hf, _⟩ |
        ⟨i2, r2, f2, hs, _, _, hst⟩
      · rw [hm, hf] at hsum; exact absurd rfl hsum
      · injection hs with e1 e2 e3
        subst e1
        rw [hst, countNew_counted]
        exact List.mem_cons_self _ _

/-- The first valid `observe` of an uncounted identity credits it. -/
theorem creditsTo_first (st : TrackerState) (i : String) (r : ClassificationResult)
    (f : ℕ) (hm : i ∉ st.counted_person_ids) (hv : validResult r = true) :
    creditsTo st i (Step.observe i (some r) f) = true := by
  have hst : applyStep st (Step.observe i (some r) f) = countNew st i r f := by
    rw [applyStep_observe_some, if_pos hv, if_neg hm]
  rw [creditsTo_observe, hst, Bool.and_eq_true, decide_eq_true_eq, decide_eq_true_eq]
  exact ⟨rfl, by rw [countNew_sum st i r f hv]; omega⟩

theorem creditEvents_cons (i : String) (st : TrackerState) (s : Step) (l : List Step) :
    creditEvents i st (s :: l)
      = (if creditsTo st i s = true then 1 else 0) + creditEvents i (applyStep st s) l := rfl

/-- Once an identity is in the counted set, no later event credits it. -/
theorem creditEvents_eq_zero_of_counted (i : String) :
    ∀ (st : TrackerState) (l : List Step),
      i ∈ st.counted_person_ids → creditEvents i st l = 0
  | _, [], _ => rfl
  | st, s :: l, h => by
      rw [creditEvents_cons, creditsTo_eq_false_of_counted st i s h]
      simp only [Bool.false_eq_true, if_false, Nat.zero_add]
      exact creditEvents_eq_zero_of_counted i (applyStep st s) l
        (mem_counted_applyStep st s i h)

theorem creditEvents_le_one_aux (i : String) :
    ∀ (st : TrackerState) (l : List Step), creditEvents i st l ≤ 1
  | _, [] => Nat.zero_le 1
  | st, s :: l => by
      rw [creditEvents_cons]
      by_cases hc : creditsTo st i s = true
      · rw [if_pos hc, creditEvents_eq_zero_of_counted i (applyStep st s) l
          (mem_counted_of_creditsTo st i s hc)]
      · rw [if_neg hc]
        simpa using creditEvents_le_one_aux i (applyStep st s) l

/-! The claims. -/

/-- C1: across any sequence of tracker events, the number of per-category
counter increments on account of an identity `i` is at most 1; the first
`observe` of `i` with a present, valid classification result while `i` is
not yet in the counted set increments the per-category counters by
exactly 1, and after it no later event credits `i` again. -/
theorem at_most_once_counting (i : String) (st : TrackerState) (l : List Step)
    (r : ClassificationResult) (f : ℕ)
    (hm : i ∉ st.counted_person_ids) (hv : validResult r = true) :
    creditEvents i st l ≤ 1
    ∧ creditsTo st i (Step.observe i (some r) f) = true
    ∧ (applyStep st (Step.observe i (some r) f)).male_count
        + (applyStep st (Step.observe i (some r) f)).female_count
      = st.male_count + st.female_count + 1
    ∧ creditEvents i st (Step.observe i (some r) f :: l) = 1 := by
  have hst : applyStep st (Step.observe i (some r) f) = countNew st i r f := by
    rw [applyStep_observe_some, if_pos hv, if_neg hm]
  have hcr := creditsTo_first st i r f hm hv
  have hz : creditEvents i (applyStep st (Step.observe i (some r) f)) l = 0 := by
    refine creditEvents_eq_zero_of_counted i _ l ?_
    rw [hst, countNew_counted]
    exact List.mem_cons_self _ _
  refine ⟨creditEvents_le_one_aux i st l, hcr, ?_, ?_⟩
  · rw [hst, countNew_sum st i r f hv]
  · rw [creditEvents_cons, if_pos hcr, hz]

/-- Closed instance of `at_most_once_counting` on a concrete session. -/
theorem at_most_once_counting_witness :
    creditEvents "P1" initState [Step.observe "P1" (some ⟨"MALE", 1⟩) 2] ≤ 1
    ∧ creditsTo initState "P1" (Step.observe "P1" (some ⟨"MALE", 1⟩) 1) = true
    ∧ (applyStep initState (Step.observe "P1" (some ⟨"MALE", 1⟩) 1)).male_count
        + (applyStep initState (Step.observe "P1" (some ⟨"MALE", 1⟩) 1)).female_count
      = initState.male_count + initState.female_count + 1
    ∧ creditEvents "P1" initState
        (Step.observe "P1" (some ⟨"MALE", 1⟩) 1 :: [Step.observe "P1" (some ⟨"MALE", 1⟩) 2]) = 1 :=
  at_most_once_counting "P1" initState [Step.observe "P1" (some ⟨"MALE", 1⟩) 2]
    ⟨"MALE", 1⟩ 1 (by decide) (by decide)

/-- C2: an identity in the counted set stays counted after any further
sequence of `observe` and `reconcileActive` events: no event ever removes
an element from the counted set. -/
theorem isCounted_persistent (st : TrackerState) (l : List Step) (i : String)
    (h : isCounted st i = true) :
    isCounted (List.foldl applyStep st l) i = true := by
  simp only [isCounted, decide_eq_true_eq] at h ⊢
  exact mem_counted_foldl i l st h

/-- Closed instance of `isCounted_persistent` on a concrete session. -/
theorem isCounted_persistent_witness :
    isCounted (List.foldl applyStep (run [Step.observe "P1" (some ⟨"MALE", 1⟩) 100])
      [Step.reconcile [], Step.observe "P1" (some ⟨"MALE", 1⟩) 300]) "P1" = true :=
  isCounted_persistent (run [Step.observe "P1" (some ⟨"MALE", 1⟩) 100])
    [Step.reconcile [], Step.observe "P1" (some ⟨"MALE", 1⟩) 300] "P1" (by decide)

/-- C3: in every reachable state the total `count_p` equals the sum of
the per-category counters, and all three counters are monotonically
non-decreasing along any extension of the session. -/
theorem total_invariant_and_monotone (l l2 : List Step) :
    (run l).count_p = (run l).male_count + (run l).female_count
    ∧ (run l).male_count ≤ (run (l ++ l2)).male_count
    ∧ (run l).female_count ≤ (run (l ++ l2)).female_count
    ∧ (run l).count_p ≤ (run (l ++ l2)).count_p := by
  have htot := foldl_preserve
    (fun st => st.count_p = st.male_count + st.female_count)
    total_inv_applyStep l initState rfl
  have hmono := counters_mono_foldl l2 (run l)
  have happ : run (l ++ l2) = List.foldl applyStep (run l) l2 := by
    rw [run, run, List.foldl_append]
  exact ⟨htot, by rw [happ]; exact hmono.1, by rw [happ]; exact hmono.2.1,
    by rw [happ]; exact hmono.2.2⟩

/-- C4: `reconcileActive` shrinks the record map to keys of the current
frame set — every key surviving it lies in the input set, every record
whose key is in the input set survives — and the counted set is exactly
what it was before the call. -/
theorem reconcileActive_spec (st : TrackerState) (S : List String) :
    (∀ k ∈ keys (reconcileActive st S).tracked_people_gender, k ∈ S)
    ∧ (reconcileActive st S).counted_person_ids = st.counted_person_ids
    ∧ ∀ p ∈ st.tracked_people_gender, p.1 ∈ S →
        p ∈ (reconcileActive st S).tracked_people_gender := by
  refine ⟨?_, rfl, ?_⟩
  · intro k hk
    simp only [keys, reconcileActive, List.mem_map, List.mem_filter,
      decide_eq_true_eq] at hk
    obtain ⟨p, ⟨_, hs⟩, rfl⟩ := hk
    exact hs
  · intro p hp hs
    simp only [reconcileActive, List.mem_filter, decide_eq_true_eq]
    exact ⟨hp, hs⟩

/-- C5: a valid `observe` of an already-counted identity succeeds,
changes no counter and no counted-set membership, and rewrites that
identity's record to the latest label and confidence with the counted
flag still true. -/
theorem observe_counted_updates (st : TrackerState) (i : String)
    (r : ClassificationResult) (f : ℕ)
    (hc : i ∈ st.counted_person_ids) (hv : validResult r = true) :
    observe st i (some r) f = Except.ok (updateSeen st i r f)
    ∧ (updateSeen st i r f).male_count = st.male_count
    ∧ (updateSeen st i r f).female_count = st.female_count
    ∧ (updateSeen st i r f).count_p = st.count_p
    ∧ (updateSeen st i r f).counted_person_ids = st.counted_person_ids
    ∧ lookupRec i (updateSeen st i r f).tracked_people_gender
        = some ⟨r.category, r.confidence, true, firstSeen st i f⟩ := by
  refine ⟨?_, rfl, rfl, rfl, rfl, ?_⟩
  · simp [observe, hv, hc]
  · rw [updateSeen_tracked, lookupRec_setRecord_self]

/-- Closed instance of `observe_counted_updates` on a concrete state. -/
theorem observe_counted_updates_witness :
    observe (run [Step.observe "P2" (some ⟨"FEMALE", 1⟩) 101]) "P2" (some ⟨"FEMALE", 0⟩) 102
      = Except.ok (updateSeen (run [Step.observe "P2" (some ⟨"FEMALE", 1⟩) 101]) "P2" ⟨"FEMALE", 0⟩ 102)
    ∧ (updateSeen (run [Step.observe "P2" (some ⟨"FEMALE", 1⟩) 101]) "P2" ⟨"FEMALE", 0⟩ 102).male_count
      = (run [Step.observe "P2" (some ⟨"FEMALE", 1⟩) 101]).male_count
    ∧ (updateSeen (run [Step.observe "P2" (some ⟨"FEMALE", 1⟩) 101]) "P2" ⟨"FEMALE", 0⟩ 102).female_count
      = (run [Step.observe "P2" (some ⟨"FEMALE", 1⟩) 101]).female_count
    ∧ (updateSeen (run [Step.observe "P2" (some ⟨"FEMALE", 1⟩) 101]) "P2" ⟨"FEMALE", 0⟩ 102).count_p
      = (run [Step.observe "P2" (some ⟨"FEMALE", 1⟩) 101]).count_p
    ∧ (updateSeen (run [Step.observe "P2" (some ⟨"FEMALE", 1⟩) 101]) "P2" ⟨"FEMALE", 0⟩ 102).counted_person_ids
      = (run [Step.observe "P2" (some ⟨"FEMALE", 1⟩) 101]).counted_person_ids
    ∧ lookupRec "P2"
        (updateSeen (run [Step.observe "P2" (some ⟨"FEMALE", 1⟩) 101]) "P2" ⟨"FEMALE", 0⟩ 102).tracked_people_gender
      = some ⟨"FEMALE", 0, true, firstSeen (run [Step.observe "P2" (some ⟨"FEMALE", 1⟩) 101]) "P2" 102⟩ :=
  observe_counted_updates (run [Step.observe "P2" (some ⟨"FEMALE", 1⟩) 101]) "P2"
    ⟨"FEMALE", 0⟩ 102 (by decide) (by decide)

/-- C6: an `observe` whose classification result is absent returns the
state unchanged — same counted set, same counters, same record map — and
the corresponding session event is the identity on states. -/
theorem observe_absent_noop (st : TrackerState) (i : String) (f : ℕ) :
    observe st i none f = Except.ok st
    ∧ applyStep st (Step.observe i none f) = st :=
  ⟨rfl, rfl⟩

/-- C7: an `observe` carrying a malformed classification result (bad
confidence or unrecognized category) surfaces an invalid-input error and
the session state is unchanged. -/
theorem observe_invalid_rejected (st : TrackerState) (i : String)
    (r : ClassificationResult) (f : ℕ) (h : validResult r = false) :
    observe st i (some r) f = Except.error "invalid classification result"
    ∧ applyStep st (Step.observe i (some r) f) = st := by
  constructor
  · simp [observe, h]
  · rw [applyStep_observe_some]
    simp [h]

/-- Closed instance of `observe_invalid_rejected` at confidence 2. -/
theorem observe_invalid_rejected_witness :
    observe initState "P3" (some ⟨"MALE", 2⟩) 1 = Except.error "invalid classification result"
    ∧ applyStep initState (Step.observe "P3" (some ⟨"MALE", 2⟩) 1) = initState :=
  observe_invalid_rejected initState "P3" ⟨"MALE", 2⟩ 1 (by decide)

/-- C8: an identity never seen — absent from the counted set and from the
record map — is reported uncounted by both queries, with no error. -/
theorem unknown_identity_uncounted (st : TrackerState) (i : String)
    (h1 : i ∉ st.counted_person_ids)
    (_h2 : lookupRec i st.tracked_people_gender = none) :
    isCounted st i = false ∧ status st i = TrackStatus.uncounted := by
  have hc : isCounted st i = false := by simp [isCounted, h1]
  exact ⟨hc, by simp [status, hc]⟩

/-- Closed instance of `unknown_identity_uncounted` on a concrete state. -/
theorem unknown_identity_uncounted_witness :
    isCounted (run [Step.observe "P1" (some ⟨"MALE", 1⟩) 100]) "P9" = false
    ∧ status (run [Step.observe "P1" (some ⟨"MALE", 1⟩) 100]) "P9" = TrackStatus.uncounted :=
  unknown_identity_uncounted (run [Step.observe "P1" (some ⟨"MALE", 1⟩) 100]) "P9"
    (by decide) (by decide)

/-- C9: in every reachable state the counted set has no duplicates and
the total `count_p` equals its cardinality: the total is bumped exactly
when an identity enters the counted set. -/
theorem total_eq_card_counted (l : List Step) :
    (run l).counted_person_ids.Nodup
    ∧ (run l).count_p = (run l).counted_person_ids.length :=
  foldl_preserve
    (fun st => st.counted_person_ids.Nodup ∧ st.count_p = st.counted_person_ids.length)
    card_inv_applyStep l initState ⟨List.nodup_nil, rfl⟩

/-- C10: in every reachable state, every key of the record map is a
member of the counted set and every stored record has its counted flag
set to true. -/
theorem records_imply_counted (l : List Step) (p : String × ActiveRecord)
    (hp : p ∈ (run l).tracked_people_gender) :
    p.1 ∈ (run l).counted_person_ids ∧ p.2.counted = true :=
  foldl_preserve
    (fun st => ∀ q ∈ st.tracked_people_gender,
      q.1 ∈ st.counted_person_ids ∧ q.2.counted = true)
    records_inv_applyStep l initState
    (fun q hq => absurd hq (List.not_mem_nil q)) p hp

/-- Closed instance of `records_imply_counted` on a concrete session. -/
theorem records_imply_counted_witness :
    ("P1", ActiveRecord.mk "MALE" 1 true 100).1
        ∈ (run [Step.observe "P1" (some ⟨"MALE", 1⟩) 100]).counted_person_ids
    ∧ ("P1", ActiveRecord.mk "MALE" 1 true 100).2.counted = true :=
  records_imply_counted [Step.observe "P1" (some ⟨"MALE", 1⟩) 100]
    ("P1", ActiveRecord.mk "MALE" 1 true 100) (by decide)

end PeopleCounter
